import Mathlib

/-!
Verification of the Orca webhook-handler core: a shallow embedding of
`HandleCheckSuite`, `handleFailure`, `completeCheckRun`, `updateCheckRun` and
`AllMatchesAreResolved` (pkg/handlers, check-suite handler), `HandlePush`
(pkg/handlers/payloadHandler.go) and `RemediateFromPush`
(pkg/remediator/remediator.go).

The handlers are modelled as functions from an environment of external
collaborators (the hosting-platform API client and the scanner) to the list of
API effects the handler performs, in order.  Each `Except`-valued field of an
environment models one collaborator call that the Go code checks for an error;
the effect trace records every call the Go code issues, in program order.
Repository-routing arguments (owner and name) that the Go code threads through
every API call unchanged are recorded only where a claim depends on them.
-/

namespace scanning

/-- Modelled from the spec: `scanning.Match` of the scanning package (not under
src/); the check-suite handler reads only its `Resolved` flag. -/
structure Match where
  Resolved : Bool
  deriving DecidableEq, Repr

/-- Modelled from the spec: `scanning.CommitScanResult` of the scanning package
(not under src/); the check-suite handler reads only its `Matches` list. -/
structure CommitScanResult where
  Matches : List Match
  deriving DecidableEq, Repr

end scanning

/-- `caching.FileState` (referenced by the check-suite handler); `FileAdded` is
listed first as the Go zero value, which the handler's status switch leaves in
place for an unrecognized status string. -/
inductive FileState where
  | FileAdded
  | FileModified
  | FileRemoved
  deriving DecidableEq, Repr

/-- `caching.GitHubFileQuery` as constructed by `HandleCheckSuite`. -/
structure GitHubFileQuery where
  RepoOwner : String
  RepoName : String
  CommitSHA : String
  FileName : String
  Status : FileState
  deriving DecidableEq, Repr

/-- One file entry of a commit, as read by `HandleCheckSuite` from
`Repositories.GetCommit` (`*file.Status`, `*file.Filename`). -/
structure CommitFile where
  Filename : String
  Status : String
  deriving DecidableEq, Repr

/-- A commit as returned by `PullRequests.ListCommits`; the handler reads only
its SHA. -/
structure Commit where
  SHA : String
  deriving DecidableEq, Repr

/-- A commit with its file list, as returned by `Repositories.GetCommit`. -/
structure RepositoryCommit where
  SHA : String
  Files : List CommitFile
  deriving DecidableEq, Repr

/-- A pull request of a check-suite payload; the handler reads only its
number. -/
structure PullRequest where
  Number : Nat
  deriving DecidableEq, Repr

/-- The fields of `github.CheckSuiteEvent` that `HandleCheckSuite` reads. -/
structure CheckSuiteEvent where
  RepoOwner : String
  RepoName : String
  HeadSHA : String
  PullRequests : List PullRequest
  deriving DecidableEq, Repr

/-- The fields of the created `github.CheckRun` that the handler reads back. -/
structure CheckRun where
  ID : Nat
  HTMLURL : String
  deriving DecidableEq, Repr

/-- `checkRunStatus`: the status strings the handler writes. -/
inductive checkRunStatus where
  | in_progress
  | completed
  deriving DecidableEq, Repr

/-- `checkRunConclusion`: the conclusion strings the handler writes. -/
inductive checkRunConclusion where
  | success
  | skipped
  | failure
  deriving DecidableEq, Repr

/-- One external API call issued by `HandleCheckSuite`, in the order the Go
code issues them. -/
inductive Effect where
  | createCheckRun (headSHA : String)
  | listCommits (prNumber : Nat)
  | getCommit (sha : String)
  | scanFiles (queries : List GitHubFileQuery)
  | createComment (prNumber : Nat) (body : String)
  | updateCheckRun (status : checkRunStatus) (conclusion : checkRunConclusion)
      (summary : String) (text : Option String)
  deriving DecidableEq, Repr

/-- The external collaborators `HandleCheckSuite` calls.  `updateResult` is the
outcome of the `Checks.UpdateCheckRun` call, which `updateCheckRun` only logs;
`buildMessage` is the out-of-scope Markdown assembly `BuildMessage` (title and
detail text). -/
structure CheckSuiteEnv where
  createCheckRun : Except String CheckRun
  listCommits : Nat → Except String (List Commit)
  getCommit : String → Except String RepositoryCommit
  scanQueries : List GitHubFileQuery → Except String (List scanning.CommitScanResult)
  createComment : Nat → String → Except String Unit
  buildMessage : List scanning.CommitScanResult → String × String
  updateResult : Except String Unit

/-- `AllMatchesAreResolved`: false as soon as any match of any result is
unresolved, true otherwise (vacuously true on the empty list). -/
def AllMatchesAreResolved (scanResults : List scanning.CommitScanResult) : Bool :=
  scanResults.all (fun result => result.Matches.all (fun m => m.Resolved))

/-- The status switch of `HandleCheckSuite` over `*file.Status`; no default
case, so an unrecognized status keeps the Go zero value `FileAdded`. -/
def fileStateOfStatus (status : String) : FileState :=
  match status with
  | "added" => FileState.FileAdded
  | "modified" => FileState.FileModified
  | "removed" => FileState.FileRemoved
  | _ => FileState.FileAdded

/-- The per-file inner loop of `HandleCheckSuite`: one `GitHubFileQuery` per
file of a commit. -/
def queriesOfFiles (owner name sha : String) (files : List CommitFile) :
    List GitHubFileQuery :=
  files.map (fun file =>
    ⟨owner, name, sha, file.Filename, fileStateOfStatus file.Status⟩)

/-- The per-commit loop of `HandleCheckSuite`: fetch each commit with its files
and accumulate file queries across all commits of the pull request.  Returns
the `GetCommit` effects issued and either the accumulated queries or the
`handleFailure` summary for the first failing fetch. -/
def buildFileQueries (env : CheckSuiteEnv) (owner name : String) (prNumber : Nat) :
    List Commit → List GitHubFileQuery → List Effect × Except String (List GitHubFileQuery)
  | [], acc => ([], Except.ok acc)
  | commit :: rest, acc =>
    match env.getCommit commit.SHA with
    | Except.error _ =>
      ([Effect.getCommit commit.SHA],
       Except.error ("Failed to get commit " ++ commit.SHA ++ " from pull request #"
         ++ toString prNumber))
    | Except.ok commitWithFiles =>
      let step := buildFileQueries env owner name prNumber rest
        (acc ++ queriesOfFiles owner name commit.SHA commitWithFiles.Files)
      (Effect.getCommit commit.SHA :: step.1, step.2)

/-- The reminder comment body posted when matches are found but all resolved. -/
def reminderBody (htmlURL : String) : String :=
  "## :warning: Heads up!\n"
    ++ "It looks like there is _potentially_ sensitive information in the commit history, but it appears to have since been removed.\n"
    ++ "See the [Orca check results](" ++ htmlURL ++ ") for more information.\n"
    ++ "If any sensitive information is in the history, please make sure it is addressed appropriately."

/-- Whether a pull-request evaluation ends the handler (`return` inside the
Go loop) or falls through to the next pull request. -/
inductive PRStep where
  | stop
  | next
  deriving DecidableEq, Repr

/-- One iteration of the pull-request loop of `HandleCheckSuite`: list the
commits, gather file queries, scan, and either conclude the check run
(`PRStep.stop`, with the terminal `UpdateCheckRun` effect already in the
trace) or fall through clean (`PRStep.next`). -/
def evaluatePullRequest (env : CheckSuiteEnv) (payload : CheckSuiteEvent)
    (checkRun : CheckRun) (pullRequest : PullRequest) : List Effect × PRStep :=
  match env.listCommits pullRequest.Number with
  | Except.error _ =>
    ([Effect.listCommits pullRequest.Number,
      Effect.updateCheckRun checkRunStatus.completed checkRunConclusion.failure
        ("Failed to get commits from pull request #" ++ toString pullRequest.Number) none],
     PRStep.stop)
  | Except.ok commits =>
    let gathered := buildFileQueries env payload.RepoOwner payload.RepoName
      pullRequest.Number commits []
    match gathered.2 with
    | Except.error summary =>
      (Effect.listCommits pullRequest.Number :: gathered.1
        ++ [Effect.updateCheckRun checkRunStatus.completed checkRunConclusion.failure
              summary none],
       PRStep.stop)
    | Except.ok fileQueries =>
      match env.scanQueries fileQueries with
      | Except.error _ =>
        (Effect.listCommits pullRequest.Number :: gathered.1
          ++ [Effect.scanFiles fileQueries,
              Effect.updateCheckRun checkRunStatus.completed checkRunConclusion.failure
                ("Failed to scan commits from pull request #" ++ toString pullRequest.Number)
                none],
         PRStep.stop)
      | Except.ok commitScanResults =>
        if commitScanResults.length > 0 then
          if AllMatchesAreResolved commitScanResults then
            match env.createComment pullRequest.Number (reminderBody checkRun.HTMLURL) with
            | Except.error _ =>
              (Effect.listCommits pullRequest.Number :: gathered.1
                ++ [Effect.scanFiles fileQueries,
                    Effect.createComment pullRequest.Number (reminderBody checkRun.HTMLURL),
                    Effect.updateCheckRun checkRunStatus.completed checkRunConclusion.failure
                      "Failed to reply to Pull Request with commit history warning" none],
               PRStep.stop)
            | Except.ok _ =>
              (Effect.listCommits pullRequest.Number :: gathered.1
                ++ [Effect.scanFiles fileQueries,
                    Effect.createComment pullRequest.Number (reminderBody checkRun.HTMLURL),
                    Effect.updateCheckRun checkRunStatus.completed checkRunConclusion.success
                      (env.buildMessage commitScanResults).1
                      (some (env.buildMessage commitScanResults).2)],
               PRStep.stop)
          else
            (Effect.listCommits pullRequest.Number :: gathered.1
              ++ [Effect.scanFiles fileQueries,
                  Effect.updateCheckRun checkRunStatus.completed checkRunConclusion.failure
                    (env.buildMessage commitScanResults).1
                    (some (env.buildMessage commitScanResults).2)],
             PRStep.stop)
        else
          (Effect.listCommits pullRequest.Number :: gathered.1 ++ [Effect.scanFiles fileQueries],
           PRStep.next)

/-- The pull-request loop of `HandleCheckSuite`: stop at the first pull
request that concludes the run; after a clean pass over all of them, complete
with success ("No issues detected"). -/
def processPullRequests (env : CheckSuiteEnv) (payload : CheckSuiteEvent)
    (checkRun : CheckRun) : List PullRequest → List Effect
  | [] =>
    [Effect.updateCheckRun checkRunStatus.completed checkRunConclusion.success
      "No issues detected" none]
  | pullRequest :: rest =>
    let step := evaluatePullRequest env payload checkRun pullRequest
    match step.2 with
    | PRStep.stop => step.1
    | PRStep.next => step.1 ++ processPullRequests env payload checkRun rest

/-- The summary written when a check suite has no associated pull requests. -/
def skippedSummary : String :=
  "No Pull Requests found. Orca Checks are currently only supported from Pull Requests"

/-- `HandleCheckSuite`: create the check run (returning at once if creation
fails), then either run the pull-request loop or complete with `skipped` when
the suite has no pull requests. -/
def HandleCheckSuite (env : CheckSuiteEnv) (payload : CheckSuiteEvent) : List Effect :=
  match env.createCheckRun with
  | Except.error _ => [Effect.createCheckRun payload.HeadSHA]
  | Except.ok checkRun =>
    if payload.PullRequests.length > 0 then
      Effect.createCheckRun payload.HeadSHA
        :: processPullRequests env payload checkRun payload.PullRequests
    else
      [Effect.createCheckRun payload.HeadSHA,
       Effect.updateCheckRun checkRunStatus.completed checkRunConclusion.skipped
         skippedSummary none]

/-- C1: `AllMatchesAreResolved` is vacuously true on the empty list, false iff
some match of some result is unresolved, and true iff every match of every
result is resolved. -/
theorem allMatchesAreResolved_spec :
    AllMatchesAreResolved [] = true ∧
    ∀ scanResults : List scanning.CommitScanResult,
      (AllMatchesAreResolved scanResults = false ↔
        ∃ result ∈ scanResults, ∃ m ∈ result.Matches, m.Resolved = false) ∧
      (AllMatchesAreResolved scanResults = true ↔
        ∀ result ∈ scanResults, ∀ m ∈ result.Matches, m.Resolved = true) := by
  refine ⟨rfl, fun scanResults => ⟨?_, ?_⟩⟩
  · simp [AllMatchesAreResolved, List.all_eq_true]
  · simp [AllMatchesAreResolved, List.all_eq_true]

/-- Witness for C1 at a concrete input: one result with one unresolved match. -/
theorem allMatchesAreResolved_spec_witness :
    AllMatchesAreResolved [⟨[⟨false⟩]⟩] = false := by
  have h := (allMatchesAreResolved_spec.2 [⟨[⟨false⟩]⟩]).1
  exact h.mpr ⟨⟨[⟨false⟩]⟩, by simp, ⟨false⟩, by simp, rfl⟩

/-- A trace concludes with a given conclusion when its final effect is a
completed check-run update carrying that conclusion. -/
def concludesWith (trace : List Effect) (conclusion : checkRunConclusion) : Prop :=
  ∃ summary text,
    trace.getLast? =
      some (Effect.updateCheckRun checkRunStatus.completed conclusion summary text)

/-- Effects that belong to the scan pipeline (commit listing, commit fetching,
content scanning). -/
def isScanEffect : Effect → Bool
  | Effect.listCommits _ => true
  | Effect.getCommit _ => true
  | Effect.scanFiles _ => true
  | _ => false

/-- Effects that write the check run. -/
def isUpdateEffect : Effect → Bool
  | Effect.updateCheckRun _ _ _ _ => true
  | _ => false

/-- The status carried by a check-run update effect, if any. -/
def effectStatus : Effect → Option checkRunStatus
  | Effect.updateCheckRun status _ _ _ => some status
  | _ => none

/-- C2: when the first pull request of the suite scans to a non-empty result
set whose matches are all resolved (and the reminder comment succeeds), the
handler posts the reminder comment on the pull request and then completes the
check run with conclusion success; the trace equality exhibits the comment
immediately before the terminal success update. -/
theorem handleCheckSuite_allResolved_success
    (env : CheckSuiteEnv) (payload : CheckSuiteEvent) (checkRun : CheckRun)
    (pullRequest : PullRequest) (rest : List PullRequest) (commits : List Commit)
    (gatherEffects : List Effect) (fileQueries : List GitHubFileQuery)
    (commitScanResults : List scanning.CommitScanResult)
    (hpr : payload.PullRequests = pullRequest :: rest)
    (hcreate : env.createCheckRun = Except.ok checkRun)
    (hlist : env.listCommits pullRequest.Number = Except.ok commits)
    (hgather : buildFileQueries env payload.RepoOwner payload.RepoName
      pullRequest.Number commits [] = (gatherEffects, Except.ok fileQueries))
    (hscan : env.scanQueries fileQueries = Except.ok commitScanResults)
    (hnonempty : commitScanResults.length > 0)
    (hresolved : AllMatchesAreResolved commitScanResults = true)
    (hcomment : env.createComment pullRequest.Number (reminderBody checkRun.HTMLURL)
      = Except.ok ()) :
    HandleCheckSuite env payload =
      Effect.createCheckRun payload.HeadSHA
        :: Effect.listCommits pullRequest.Number
        :: gatherEffects
        ++ [Effect.scanFiles fileQueries,
            Effect.createComment pullRequest.Number (reminderBody checkRun.HTMLURL),
            Effect.updateCheckRun checkRunStatus.completed checkRunConclusion.success
              (env.buildMessage commitScanResults).1
              (some (env.buildMessage commitScanResults).2)]
    ∧ concludesWith (HandleCheckSuite env payload) checkRunConclusion.success := by
  have htrace : HandleCheckSuite env payload =
      Effect.createCheckRun payload.HeadSHA
        :: Effect.listCommits pullRequest.Number
        :: gatherEffects
        ++ [Effect.scanFiles fileQueries,
            Effect.createComment pullRequest.Number (reminderBody checkRun.HTMLURL),
            Effect.updateCheckRun checkRunStatus.completed checkRunConclusion.success
              (env.buildMessage commitScanResults).1
              (some (env.buildMessage commitScanResults).2)] := by
    simp [HandleCheckSuite, hcreate, hpr, processPullRequests, evaluatePullRequest,
      hlist, hgather, hscan, hnonempty, hresolved, hcomment]
  refine ⟨htrace, ?_⟩
  refine ⟨(env.buildMessage commitScanResults).1,
    some (env.buildMessage commitScanResults).2, ?_⟩
  rw [htrace]
  rw [show Effect.createCheckRun payload.HeadSHA
      :: Effect.listCommits pullRequest.Number
      :: gatherEffects
      ++ [Effect.scanFiles fileQueries,
          Effect.createComment pullRequest.Number (reminderBody checkRun.HTMLURL),
          Effect.updateCheckRun checkRunStatus.completed checkRunConclusion.success
            (env.buildMessage commitScanResults).1
            (some (env.buildMessage commitScanResults).2)]
    = (Effect.createCheckRun payload.HeadSHA
        :: Effect.listCommits pullRequest.Number :: gatherEffects)
      ++ Effect.scanFiles fileQueries
      :: [Effect.createComment pullRequest.Number (reminderBody checkRun.HTMLURL),
          Effect.updateCheckRun checkRunStatus.completed checkRunConclusion.success
            (env.buildMessage commitScanResults).1
            (some (env.buildMessage commitScanResults).2)] by simp]
  rw [List.getLast?_append_cons]
  rfl

/-- A sample created check run used by concrete instantiations. -/
def sampleCheckRun : CheckRun := ⟨7, "https://example.test/check/7"⟩

/-- A sample scan result whose single match is resolved. -/
def resolvedResult : scanning.CommitScanResult := ⟨[⟨true⟩]⟩

/-- A sample scan result whose single match is unresolved. -/
def unresolvedResult : scanning.CommitScanResult := ⟨[⟨false⟩]⟩

/-- A sample check-suite payload with one associated pull request. -/
def samplePayload : CheckSuiteEvent := ⟨"octo", "orca", "headsha", [⟨1⟩]⟩

/-- An environment in which the single pull request scans to one result whose
matches are all resolved. -/
def envAllResolved : CheckSuiteEnv :=
  ⟨Except.ok sampleCheckRun,
   fun _ => Except.ok [],
   fun _ => Except.ok ⟨"", []⟩,
   fun _ => Except.ok [resolvedResult],
   fun _ _ => Except.ok (),
   fun _ => ("report title", "report text"),
   Except.ok ()⟩

/-- Witness for C2 at a concrete environment and payload. -/
theorem handleCheckSuite_allResolved_success_witness :
    HandleCheckSuite envAllResolved samplePayload =
      Effect.createCheckRun samplePayload.HeadSHA
        :: Effect.listCommits 1
        :: []
        ++ [Effect.scanFiles [],
            Effect.createComment 1 (reminderBody sampleCheckRun.HTMLURL),
            Effect.updateCheckRun checkRunStatus.completed checkRunConclusion.success
              (envAllResolved.buildMessage [resolvedResult]).1
              (some (envAllResolved.buildMessage [resolvedResult]).2)]
    ∧ concludesWith (HandleCheckSuite envAllResolved samplePayload)
        checkRunConclusion.success :=
  handleCheckSuite_allResolved_success envAllResolved samplePayload sampleCheckRun
    ⟨1⟩ [] [] [] [] [resolvedResult] rfl rfl rfl rfl rfl (by decide) rfl rfl

/-- C3: when the first pull request of the suite scans to a non-empty result
set containing an unresolved match, the handler completes the check run with
conclusion failure. -/
theorem handleCheckSuite_unresolved_failure
    (env : CheckSuiteEnv) (payload : CheckSuiteEvent) (checkRun : CheckRun)
    (pullRequest : PullRequest) (rest : List PullRequest) (commits : List Commit)
    (gatherEffects : List Effect) (fileQueries : List GitHubFileQuery)
    (commitScanResults : List scanning.CommitScanResult)
    (hpr : payload.PullRequests = pullRequest :: rest)
    (hcreate : env.createCheckRun = Except.ok checkRun)
    (hlist : env.listCommits pullRequest.Number = Except.ok commits)
    (hgather : buildFileQueries env payload.RepoOwner payload.RepoName
      pullRequest.Number commits [] = (gatherEffects, Except.ok fileQueries))
    (hscan : env.scanQueries fileQueries = Except.ok commitScanResults)
    (hnonempty : commitScanResults.length > 0)
    (hunresolved : AllMatchesAreResolved commitScanResults = false) :
    HandleCheckSuite env payload =
      Effect.createCheckRun payload.HeadSHA
        :: Effect.listCommits pullRequest.Number
        :: gatherEffects
        ++ [Effect.scanFiles fileQueries,
            Effect.updateCheckRun checkRunStatus.completed checkRunConclusion.failure
              (env.buildMessage commitScanResults).1
              (some (env.buildMessage commitScanResults).2)]
    ∧ concludesWith (HandleCheckSuite env payload) checkRunConclusion.failure := by
  have htrace : HandleCheckSuite env payload =
      Effect.createCheckRun payload.HeadSHA
        :: Effect.listCommits pullRequest.Number
        :: gatherEffects
        ++ [Effect.scanFiles fileQueries,
            Effect.updateCheckRun checkRunStatus.completed checkRunConclusion.failure
              (env.buildMessage commitScanResults).1
              (some (env.buildMessage commitScanResults).2)] := by
    simp [HandleCheckSuite, hcreate, hpr, processPullRequests, evaluatePullRequest,
      hlist, hgather, hscan, hnonempty, hunresolved]
  refine ⟨htrace, (env.buildMessage commitScanResults).1,
    some (env.buildMessage commitScanResults).2, ?_⟩
  rw [htrace]
  rw [show Effect.createCheckRun payload.HeadSHA
      :: Effect.listCommits pullRequest.Number
      :: gatherEffects
      ++ [Effect.scanFiles fileQueries,
          Effect.updateCheckRun checkRunStatus.completed checkRunConclusion.failure
            (env.buildMessage commitScanResults).1
            (some (env.buildMessage commitScanResults).2)]
    = (Effect.createCheckRun payload.HeadSHA
        :: Effect.listCommits pullRequest.Number :: gatherEffects)
      ++ Effect.scanFiles fileQueries
      :: [Effect.updateCheckRun checkRunStatus.completed checkRunConclusion.failure
            (env.buildMessage commitScanResults).1
            (some (env.buildMessage commitScanResults).2)] by simp]
  rw [List.getLast?_append_cons]
  rfl

/-- An environment in which the single pull request scans to one result with
an unresolved match. -/
def envUnresolved : CheckSuiteEnv :=
  ⟨Except.ok sampleCheckRun,
   fun _ => Except.ok [],
   fun _ => Except.ok ⟨"", []⟩,
   fun _ => Except.ok [unresolvedResult],
   fun _ _ => Except.ok (),
   fun _ => ("report title", "report text"),
   Except.ok ()⟩

/-- Witness for C3 at a concrete environment and payload. -/
theorem handleCheckSuite_unresolved_failure_witness :
    HandleCheckSuite envUnresolved samplePayload =
      Effect.createCheckRun samplePayload.HeadSHA
        :: Effect.listCommits 1
        :: []
        ++ [Effect.scanFiles [],
            Effect.updateCheckRun checkRunStatus.completed checkRunConclusion.failure
              (envUnresolved.buildMessage [unresolvedResult]).1
              (some (envUnresolved.buildMessage [unresolvedResult]).2)]
    ∧ concludesWith (HandleCheckSuite envUnresolved samplePayload)
        checkRunConclusion.failure :=
  handleCheckSuite_unresolved_failure envUnresolved samplePayload sampleCheckRun
    ⟨1⟩ [] [] [] [] [unresolvedResult] rfl rfl rfl rfl rfl (by decide) rfl

/-- C4: a check suite with zero associated pull requests completes the check
run with conclusion skipped — never success, never failure — and performs no
scan effect at all. -/
theorem handleCheckSuite_noPRs_skipped
    (env : CheckSuiteEnv) (payload : CheckSuiteEvent) (checkRun : CheckRun)
    (hpr : payload.PullRequests = [])
    (hcreate : env.createCheckRun = Except.ok checkRun) :
    HandleCheckSuite env payload =
      [Effect.createCheckRun payload.HeadSHA,
       Effect.updateCheckRun checkRunStatus.completed checkRunConclusion.skipped
         skippedSummary none]
    ∧ concludesWith (HandleCheckSuite env payload) checkRunConclusion.skipped
    ∧ ¬ concludesWith (HandleCheckSuite env payload) checkRunConclusion.success
    ∧ ¬ concludesWith (HandleCheckSuite env payload) checkRunConclusion.failure
    ∧ ∀ e ∈ HandleCheckSuite env payload, isScanEffect e = false := by
  have htrace : HandleCheckSuite env payload =
      [Effect.createCheckRun payload.HeadSHA,
       Effect.updateCheckRun checkRunStatus.completed checkRunConclusion.skipped
         skippedSummary none] := by
    simp [HandleCheckSuite, hcreate, hpr]
  refine ⟨htrace, ⟨skippedSummary, none, by rw [htrace]; rfl⟩, ?_, ?_, ?_⟩
  · rintro ⟨s, t, hlast⟩
    rw [htrace] at hlast
    simp [concludesWith] at hlast
  · rintro ⟨s, t, hlast⟩
    rw [htrace] at hlast
    simp [concludesWith] at hlast
  · intro e he
    rw [htrace] at he
    simp only [List.mem_cons, List.not_mem_nil, or_false] at he
    rcases he with h | h <;> rw [h] <;> rfl

/-- An environment whose scan collaborators are never consulted. -/
def envInert : CheckSuiteEnv :=
  ⟨Except.ok sampleCheckRun,
   fun _ => Except.error "unused",
   fun _ => Except.error "unused",
   fun _ => Except.error "unused",
   fun _ _ => Except.error "unused",
   fun _ => ("report title", "report text"),
   Except.ok ()⟩

/-- A sample check-suite payload with no associated pull requests. -/
def noPRPayload : CheckSuiteEvent := ⟨"octo", "orca", "headsha", []⟩

/-- Witness for C4 at a concrete environment and payload. -/
theorem handleCheckSuite_noPRs_skipped_witness :
    HandleCheckSuite envInert noPRPayload =
      [Effect.createCheckRun noPRPayload.HeadSHA,
       Effect.updateCheckRun checkRunStatus.completed checkRunConclusion.skipped
         skippedSummary none]
    ∧ concludesWith (HandleCheckSuite envInert noPRPayload) checkRunConclusion.skipped
    ∧ ¬ concludesWith (HandleCheckSuite envInert noPRPayload) checkRunConclusion.success
    ∧ ¬ concludesWith (HandleCheckSuite envInert noPRPayload) checkRunConclusion.failure
    ∧ ∀ e ∈ HandleCheckSuite envInert noPRPayload, isScanEffect e = false :=
  handleCheckSuite_noPRs_skipped envInert noPRPayload sampleCheckRun rfl rfl

/-- C5: an unrecoverable error while listing pull-request commits, fetching a
commit with its files, or scanning the gathered file content makes the handler
call `handleFailure`: the check run is completed with conclusion failure and
the handler returns at once — the trace equalities end at the failure update,
so no scan result is reported. -/
theorem handleCheckSuite_fetchError_failure
    (env : CheckSuiteEnv) (payload : CheckSuiteEvent) (checkRun : CheckRun)
    (pullRequest : PullRequest) (rest : List PullRequest)
    (hpr : payload.PullRequests = pullRequest :: rest)
    (hcreate : env.createCheckRun = Except.ok checkRun) :
    (∀ e, env.listCommits pullRequest.Number = Except.error e →
      HandleCheckSuite env payload =
        [Effect.createCheckRun payload.HeadSHA,
         Effect.listCommits pullRequest.Number,
         Effect.updateCheckRun checkRunStatus.completed checkRunConclusion.failure
           ("Failed to get commits from pull request #" ++ toString pullRequest.Number)
           none])
    ∧ (∀ commit commits e,
        env.listCommits pullRequest.Number = Except.ok (commit :: commits) →
        env.getCommit commit.SHA = Except.error e →
        HandleCheckSuite env payload =
          [Effect.createCheckRun payload.HeadSHA,
           Effect.listCommits pullRequest.Number,
           Effect.getCommit commit.SHA,
           Effect.updateCheckRun checkRunStatus.completed checkRunConclusion.failure
             ("Failed to get commit " ++ commit.SHA ++ " from pull request #"
               ++ toString pullRequest.Number) none])
    ∧ (∀ commits gatherEffects fileQueries e,
        env.listCommits pullRequest.Number = Except.ok commits →
        buildFileQueries env payload.RepoOwner payload.RepoName pullRequest.Number
          commits [] = (gatherEffects, Except.ok fileQueries) →
        env.scanQueries fileQueries = Except.error e →
        HandleCheckSuite env payload =
          Effect.createCheckRun payload.HeadSHA
            :: Effect.listCommits pullRequest.Number
            :: gatherEffects
            ++ [Effect.scanFiles fileQueries,
                Effect.updateCheckRun checkRunStatus.completed checkRunConclusion.failure
                  ("Failed to scan commits from pull request #" ++ toString pullRequest.Number)
                  none]) := by
  refine ⟨?_, ?_, ?_⟩
  · intro e hlist
    simp [HandleCheckSuite, hcreate, hpr, processPullRequests, evaluatePullRequest, hlist]
  · intro commit commits e hlist hget
    simp [HandleCheckSuite, hcreate, hpr, processPullRequests, evaluatePullRequest, hlist,
      buildFileQueries, hget]
  · intro commits gatherEffects fileQueries e hlist hgather hscan
    simp [HandleCheckSuite, hcreate, hpr, processPullRequests, evaluatePullRequest, hlist,
      hgather, hscan]

/-- An environment in which listing the pull-request commits fails. -/
def envListError : CheckSuiteEnv :=
  ⟨Except.ok sampleCheckRun,
   fun _ => Except.error "network failure",
   fun _ => Except.ok ⟨"", []⟩,
   fun _ => Except.ok [],
   fun _ _ => Except.ok (),
   fun _ => ("report title", "report text"),
   Except.ok ()⟩

/-- An environment in which fetching the first commit of the pull request
fails. -/
def envGetCommitError : CheckSuiteEnv :=
  ⟨Except.ok sampleCheckRun,
   fun _ => Except.ok [⟨"abc123"⟩],
   fun _ => Except.error "permission denied",
   fun _ => Except.ok [],
   fun _ _ => Except.ok (),
   fun _ => ("report title", "report text"),
   Except.ok ()⟩

/-- An environment in which scanning the gathered file content fails. -/
def envScanError : CheckSuiteEnv :=
  ⟨Except.ok sampleCheckRun,
   fun _ => Except.ok [],
   fun _ => Except.ok ⟨"", []⟩,
   fun _ => Except.error "network failure",
   fun _ _ => Except.ok (),
   fun _ => ("report title", "report text"),
   Except.ok ()⟩

/-- Witness for C5: each of the three error sites, at a concrete environment,
ends the trace at the failure update. -/
theorem handleCheckSuite_fetchError_failure_witness :
    HandleCheckSuite envListError samplePayload =
      [Effect.createCheckRun samplePayload.HeadSHA,
       Effect.listCommits 1,
       Effect.updateCheckRun checkRunStatus.completed checkRunConclusion.failure
         ("Failed to get commits from pull request #" ++ toString (1 : Nat)) none]
    ∧ HandleCheckSuite envGetCommitError samplePayload =
      [Effect.createCheckRun samplePayload.HeadSHA,
       Effect.listCommits 1,
       Effect.getCommit "abc123",
       Effect.updateCheckRun checkRunStatus.completed checkRunConclusion.failure
         ("Failed to get commit " ++ "abc123" ++ " from pull request #"
           ++ toString (1 : Nat)) none]
    ∧ HandleCheckSuite envScanError samplePayload =
      Effect.createCheckRun samplePayload.HeadSHA
        :: Effect.listCommits 1
        :: []
        ++ [Effect.scanFiles [],
            Effect.updateCheckRun checkRunStatus.completed checkRunConclusion.failure
              ("Failed to scan commits from pull request #" ++ toString (1 : Nat)) none] :=
  ⟨(handleCheckSuite_fetchError_failure envListError samplePayload sampleCheckRun
      ⟨1⟩ [] rfl rfl).1 "network failure" rfl,
   (handleCheckSuite_fetchError_failure envGetCommitError samplePayload sampleCheckRun
      ⟨1⟩ [] rfl rfl).2.1 ⟨"abc123"⟩ [] "permission denied" rfl rfl,
   (handleCheckSuite_fetchError_failure envScanError samplePayload sampleCheckRun
      ⟨1⟩ [] rfl rfl).2.2 [] [] [] "network failure" rfl rfl rfl⟩

/-- Every effect issued by the commit-gathering loop is a `getCommit` fetch. -/
theorem buildFileQueries_effects_getCommit (env : CheckSuiteEnv)
    (owner name : String) (prNumber : Nat) :
    ∀ (commits : List Commit) (acc : List GitHubFileQuery),
      ∀ e ∈ (buildFileQueries env owner name prNumber commits acc).1,
        ∃ sha, e = Effect.getCommit sha := by
  intro commits
  induction commits with
  | nil =>
    intro acc e he
    simp [buildFileQueries] at he
  | cons commit rest ih =>
    intro acc e he
    simp only [buildFileQueries] at he
    cases hget : env.getCommit commit.SHA with
    | error err =>
      rw [hget] at he
      simp at he
      exact ⟨commit.SHA, he⟩
    | ok commitWithFiles =>
      rw [hget] at he
      simp at he
      rcases he with h | h
      · exact ⟨commit.SHA, h⟩
      · exact ih _ e h

/-- The commit-gathering loop issues no check-run update. -/
theorem buildFileQueries_countP_update (env : CheckSuiteEnv)
    (owner name : String) (prNumber : Nat) (commits : List Commit)
    (acc : List GitHubFileQuery) :
    List.countP isUpdateEffect (buildFileQueries env owner name prNumber commits acc).1 = 0 := by
  refine List.countP_eq_zero.mpr ?_
  intro e he
  obtain ⟨sha, rfl⟩ := buildFileQueries_effects_getCommit env owner name prNumber commits acc e he
  simp [isUpdateEffect]

/-- One pull-request iteration issues exactly one check-run update when it
ends the handler, and none when it falls through clean. -/
theorem evaluatePullRequest_countP_update (env : CheckSuiteEnv)
    (payload : CheckSuiteEvent) (checkRun : CheckRun) (pullRequest : PullRequest) :
    List.countP isUpdateEffect (evaluatePullRequest env payload checkRun pullRequest).1 =
      (match (evaluatePullRequest env payload checkRun pullRequest).2 with
       | PRStep.stop => 1
       | PRStep.next => 0) := by
  cases hlist : env.listCommits pullRequest.Number with
  | error e =>
    simp [evaluatePullRequest, hlist, isUpdateEffect]
  | ok commits =>
    simp only [evaluatePullRequest, hlist]
    cases hgather : (buildFileQueries env payload.RepoOwner payload.RepoName
        pullRequest.Number commits []).2 with
    | error summary =>
      simp [hgather, List.countP_cons, List.countP_append, isUpdateEffect,
        buildFileQueries_countP_update]
    | ok fileQueries =>
      simp only [hgather]
      cases hscan : env.scanQueries fileQueries with
      | error e =>
        simp [List.countP_cons, List.countP_append, isUpdateEffect,
          buildFileQueries_countP_update]
      | ok commitScanResults =>
        simp only []
        by_cases hlen : commitScanResults.length > 0
        · simp only [hlen, if_true]
          by_cases hres : AllMatchesAreResolved commitScanResults
          · simp only [hres, if_true]
            cases hcomment : env.createComment pullRequest.Number
                (reminderBody checkRun.HTMLURL) with
            | error e =>
              simp [List.countP_cons, List.countP_append, isUpdateEffect,
                buildFileQueries_countP_update]
            | ok u =>
              simp [List.countP_cons, List.countP_append, isUpdateEffect,
                buildFileQueries_countP_update]
          · simp only [Bool.not_eq_true] at hres
            simp [hres, List.countP_cons, List.countP_append, isUpdateEffect,
              buildFileQueries_countP_update]
        · simp [hlen, List.countP_cons, List.countP_append, isUpdateEffect,
            buildFileQueries_countP_update]

/-- The pull-request loop of the handler issues exactly one check-run
update. -/
theorem processPullRequests_countP_update (env : CheckSuiteEnv)
    (payload : CheckSuiteEvent) (checkRun : CheckRun) :
    ∀ pullRequests : List PullRequest,
      List.countP isUpdateEffect (processPullRequests env payload checkRun pullRequests) = 1 := by
  intro pullRequests
  induction pullRequests with
  | nil => simp [processPullRequests, isUpdateEffect]
  | cons pullRequest rest ih =>
    have h := evaluatePullRequest_countP_update env payload checkRun pullRequest
    simp only [processPullRequests]
    cases hstep : (evaluatePullRequest env payload checkRun pullRequest).2 with
    | stop =>
      rw [hstep] at h
      simpa using h
    | next =>
      rw [hstep] at h
      simp [List.countP_append, h, ih]

/-- No effect of one pull-request iteration writes an in-progress status:
every check-run update it issues is a completed one. -/
theorem evaluatePullRequest_status_completed (env : CheckSuiteEnv)
    (payload : CheckSuiteEvent) (checkRun : CheckRun) (pullRequest : PullRequest) :
    ∀ e ∈ (evaluatePullRequest env payload checkRun pullRequest).1,
      effectStatus e ≠ some checkRunStatus.in_progress := by
  have hgathered : ∀ commits e,
      e ∈ (buildFileQueries env payload.RepoOwner payload.RepoName
        pullRequest.Number commits []).1 →
      effectStatus e ≠ some checkRunStatus.in_progress := by
    intro commits e he
    obtain ⟨sha, rfl⟩ := buildFileQueries_effects_getCommit env payload.RepoOwner
      payload.RepoName pullRequest.Number commits [] e he
    simp [effectStatus]
  cases hlist : env.listCommits pullRequest.Number with
  | error e =>
    simp only [evaluatePullRequest, hlist]
    intro e he
    fin_cases he <;> simp [effectStatus]
  | ok commits =>
    simp only [evaluatePullRequest, hlist]
    cases hgather : (buildFileQueries env payload.RepoOwner payload.RepoName
        pullRequest.Number commits []).2 with
    | error summary =>
      simp only [hgather]
      intro e he
      rcases List.mem_cons.mp he with h | he2
      · simp [h, effectStatus]
      · rcases List.mem_append.mp he2 with h | h
        · exact hgathered commits e h
        · (fin_cases h; simp [effectStatus])
    | ok fileQueries =>
      simp only [hgather]
      cases hscan : env.scanQueries fileQueries with
      | error e =>
        simp only []
        intro e he
        rcases List.mem_cons.mp he with h | he2
        · simp [h, effectStatus]
        · rcases List.mem_append.mp he2 with h | h
          · exact hgathered commits e h
          · fin_cases h <;> simp [effectStatus]
      | ok commitScanResults =>
        simp only []
        by_cases hlen : commitScanResults.length > 0
        · simp only [hlen, if_true]
          by_cases hres : AllMatchesAreResolved commitScanResults
          · simp only [hres, if_true]
            cases hcomment : env.createComment pullRequest.Number
                (reminderBody checkRun.HTMLURL) with
            | error e =>
              simp only []
              intro e he
              rcases List.mem_cons.mp he with h | he2
              · simp [h, effectStatus]
              · rcases List.mem_append.mp he2 with h | h
                · exact hgathered commits e h
                · fin_cases h <;> simp [effectStatus]
            | ok u =>
              simp only []
              intro e he
              rcases List.mem_cons.mp he with h | he2
              · simp [h, effectStatus]
              · rcases List.mem_append.mp he2 with h | h
                · exact hgathered commits e h
                · fin_cases h <;> simp [effectStatus]
          · simp only [Bool.not_eq_true] at hres
            simp only [hres, Bool.false_eq_true, if_false]
            intro e he
            rcases List.mem_cons.mp he with h | he2
            · simp [h, effectStatus]
            · rcases List.mem_append.mp he2 with h | h
              · exact hgathered commits e h
              · fin_cases h <;> simp [effectStatus]
        · simp only [hlen, if_false]
          intro e he
          rcases List.mem_cons.mp he with h | he2
          · simp [h, effectStatus]
          · rcases List.mem_append.mp he2 with h | h
            · exact hgathered commits e h
            · (fin_cases h; simp [effectStatus])

/-- No effect of the pull-request loop writes an in-progress status. -/
theorem processPullRequests_status_completed (env : CheckSuiteEnv)
    (payload : CheckSuiteEvent) (checkRun : CheckRun) :
    ∀ (pullRequests : List PullRequest)
      (e : Effect), e ∈ processPullRequests env payload checkRun pullRequests →
      effectStatus e ≠ some checkRunStatus.in_progress := by
  intro pullRequests
  induction pullRequests with
  | nil =>
    intro e he
    simp [processPullRequests] at he
    simp [he, effectStatus]
  | cons pullRequest rest ih =>
    intro e he
    simp only [processPullRequests] at he
    cases hstep : (evaluatePullRequest env payload checkRun pullRequest).2 with
    | stop =>
      rw [hstep] at he
      simp at he
      exact evaluatePullRequest_status_completed env payload checkRun pullRequest e he
    | next =>
      rw [hstep] at he
      simp at he
      rcases he with h | h
      · exact evaluatePullRequest_status_completed env payload checkRun pullRequest e h
      · exact ih e h

/-- The same environment with a different outcome for the
`Checks.UpdateCheckRun` write; `updateCheckRun` only logs that outcome. -/
def setUpdateResult (env : CheckSuiteEnv) (r : Except String Unit) : CheckSuiteEnv :=
  ⟨env.createCheckRun, env.listCommits, env.getCommit, env.scanQueries,
   env.createComment, env.buildMessage, r⟩

/-- The commit-gathering loop depends only on the `getCommit` collaborator. -/
theorem buildFileQueries_congr (env₁ env₂ : CheckSuiteEnv)
    (owner name : String) (prNumber : Nat)
    (hget : env₁.getCommit = env₂.getCommit) :
    ∀ (commits : List Commit) (acc : List GitHubFileQuery),
      buildFileQueries env₁ owner name prNumber commits acc
        = buildFileQueries env₂ owner name prNumber commits acc := by
  intro commits
  induction commits with
  | nil => intro acc; rfl
  | cons commit rest ih =>
    intro acc
    simp only [buildFileQueries, hget, ih]

/-- One pull-request iteration does not depend on the outcome of the
check-run update write. -/
theorem evaluatePullRequest_congr (env₁ env₂ : CheckSuiteEnv)
    (payload : CheckSuiteEvent) (checkRun : CheckRun) (pullRequest : PullRequest)
    (hlist : env₁.listCommits = env₂.listCommits)
    (hget : env₁.getCommit = env₂.getCommit)
    (hscan : env₁.scanQueries = env₂.scanQueries)
    (hcomment : env₁.createComment = env₂.createComment)
    (hbuild : env₁.buildMessage = env₂.buildMessage) :
    evaluatePullRequest env₁ payload checkRun pullRequest
      = evaluatePullRequest env₂ payload checkRun pullRequest := by
  simp only [evaluatePullRequest, hlist, hscan, hcomment, hbuild,
    buildFileQueries_congr env₁ env₂ payload.RepoOwner payload.RepoName
      pullRequest.Number hget]

/-- The pull-request loop does not depend on the outcome of the check-run
update write. -/
theorem processPullRequests_congr (env₁ env₂ : CheckSuiteEnv)
    (payload : CheckSuiteEvent) (checkRun : CheckRun)
    (hlist : env₁.listCommits = env₂.listCommits)
    (hget : env₁.getCommit = env₂.getCommit)
    (hscan : env₁.scanQueries = env₂.scanQueries)
    (hcomment : env₁.createComment = env₂.createComment)
    (hbuild : env₁.buildMessage = env₂.buildMessage) :
    ∀ pullRequests : List PullRequest,
      processPullRequests env₁ payload checkRun pullRequests
        = processPullRequests env₂ payload checkRun pullRequests := by
  intro pullRequests
  induction pullRequests with
  | nil => rfl
  | cons pullRequest rest ih =>
    simp only [processPullRequests,
      evaluatePullRequest_congr env₁ env₂ payload checkRun pullRequest
        hlist hget hscan hcomment hbuild, ih]

/-- C6: once the check run is created, every code path of `HandleCheckSuite`
issues exactly one check-run update, that update always carries status
completed (the status never moves backwards to in-progress), and the handler
behaves identically whatever the outcome of the completing update write — the
write is not retried and the check run is not re-opened. -/
theorem handleCheckSuite_completes_once
    (env : CheckSuiteEnv) (payload : CheckSuiteEvent) (checkRun : CheckRun)
    (hcreate : env.createCheckRun = Except.ok checkRun) :
    List.countP isUpdateEffect (HandleCheckSuite env payload) = 1
    ∧ (∀ e ∈ HandleCheckSuite env payload,
        effectStatus e ≠ some checkRunStatus.in_progress)
    ∧ ∀ r, HandleCheckSuite (setUpdateResult env r) payload = HandleCheckSuite env payload := by
  refine ⟨?_, ?_, ?_⟩
  · cases hprs : payload.PullRequests with
    | nil =>
      simp [HandleCheckSuite, hcreate, hprs, isUpdateEffect]
    | cons pullRequest rest =>
      simp [HandleCheckSuite, hcreate, hprs, isUpdateEffect,
        processPullRequests_countP_update env payload checkRun]
  · intro e he
    cases hprs : payload.PullRequests with
    | nil =>
      simp only [HandleCheckSuite, hcreate, hprs] at he
      simp at he
      rcases he with h | h <;> simp [h, effectStatus]
    | cons pullRequest rest =>
      simp only [HandleCheckSuite, hcreate, hprs, List.length_cons] at he
      rw [if_pos (Nat.succ_pos rest.length)] at he
      rcases List.mem_cons.mp he with h | h
      · simp [h, effectStatus]
      · rw [← hprs] at h
        exact processPullRequests_status_completed env payload checkRun
          payload.PullRequests e h
  · intro r
    simp only [HandleCheckSuite]
    rw [show (setUpdateResult env r).createCheckRun = env.createCheckRun from rfl]
    cases env.createCheckRun with
    | error e => rfl
    | ok cr =>
      simp only []
      rw [processPullRequests_congr (setUpdateResult env r) env payload cr
        rfl rfl rfl rfl rfl]

/-- Witness for C6 at a concrete environment and payload. -/
theorem handleCheckSuite_completes_once_witness :
    List.countP isUpdateEffect (HandleCheckSuite envAllResolved samplePayload) = 1
    ∧ (∀ e ∈ HandleCheckSuite envAllResolved samplePayload,
        effectStatus e ≠ some checkRunStatus.in_progress)
    ∧ ∀ r, HandleCheckSuite (setUpdateResult envAllResolved r) samplePayload
        = HandleCheckSuite envAllResolved samplePayload :=
  handleCheckSuite_completes_once envAllResolved samplePayload sampleCheckRun rfl

/-- When every pull request of the list falls through clean, the loop ends by
completing the run with success and the all-clear summary. -/
theorem processPullRequests_allClean_getLast (env : CheckSuiteEnv)
    (payload : CheckSuiteEvent) (checkRun : CheckRun) :
    ∀ pullRequests : List PullRequest,
      (∀ pr ∈ pullRequests, (evaluatePullRequest env payload checkRun pr).2 = PRStep.next) →
      (processPullRequests env payload checkRun pullRequests).getLast? =
        some (Effect.updateCheckRun checkRunStatus.completed checkRunConclusion.success
          "No issues detected" none) := by
  intro pullRequests
  induction pullRequests with
  | nil => intro h; rfl
  | cons pullRequest rest ih =>
    intro h
    have hstep := h pullRequest (List.mem_cons_self pullRequest rest)
    have hrest := ih (fun q hq => h q (List.mem_cons_of_mem pullRequest hq))
    simp only [processPullRequests, hstep]
    have hne : processPullRequests env payload checkRun rest ≠ [] := by
      intro hnil
      rw [hnil] at hrest
      simp at hrest
    rw [List.getLast?_append_of_ne_nil _ hne]
    exact hrest

/-- C10: the pull requests of the suite are evaluated in payload order; the
first one that concludes ends the handler at once, with no effect for the
remaining pull requests (first conjunct), a clean pull request appends its
effects before the rest is processed (second conjunct), a successful scan with
a non-empty result set always concludes (third conjunct), and the all-clear
success completion is reached when every pull request falls through clean
(fourth conjunct). -/
theorem handleCheckSuite_first_pr_determines
    (env : CheckSuiteEnv) (payload : CheckSuiteEvent) (checkRun : CheckRun)
    (pullRequest : PullRequest) (rest : List PullRequest)
    (hpr : payload.PullRequests = pullRequest :: rest)
    (hcreate : env.createCheckRun = Except.ok checkRun) :
    (∀ effects, evaluatePullRequest env payload checkRun pullRequest
        = (effects, PRStep.stop) →
      HandleCheckSuite env payload = Effect.createCheckRun payload.HeadSHA :: effects)
    ∧ (∀ effects, evaluatePullRequest env payload checkRun pullRequest
        = (effects, PRStep.next) →
      HandleCheckSuite env payload =
        Effect.createCheckRun payload.HeadSHA :: effects
          ++ processPullRequests env payload checkRun rest)
    ∧ (∀ commits gatherEffects fileQueries commitScanResults,
        env.listCommits pullRequest.Number = Except.ok commits →
        buildFileQueries env payload.RepoOwner payload.RepoName pullRequest.Number
          commits [] = (gatherEffects, Except.ok fileQueries) →
        env.scanQueries fileQueries = Except.ok commitScanResults →
        commitScanResults.length > 0 →
        (evaluatePullRequest env payload checkRun pullRequest).2 = PRStep.stop)
    ∧ ((∀ pr ∈ payload.PullRequests,
          (evaluatePullRequest env payload checkRun pr).2 = PRStep.next) →
        (HandleCheckSuite env payload).getLast? =
          some (Effect.updateCheckRun checkRunStatus.completed checkRunConclusion.success
            "No issues detected" none)) := by
  refine ⟨?_, ?_, ?_, ?_⟩
  · intro effects hstep
    simp [HandleCheckSuite, hcreate, hpr, processPullRequests, hstep]
  · intro effects hstep
    simp [HandleCheckSuite, hcreate, hpr, processPullRequests, hstep]
  · intro commits gatherEffects fileQueries commitScanResults hlist hgather hscan hlen
    simp only [evaluatePullRequest, hlist, hgather, hscan]
    by_cases hres : AllMatchesAreResolved commitScanResults
    · simp only [hlen, if_true, hres]
      cases hcomment : env.createComment pullRequest.Number
          (reminderBody checkRun.HTMLURL) with
      | error e => simp
      | ok u => simp
    · simp only [Bool.not_eq_true] at hres
      simp [hlen, hres]
  · intro hall
    have h := processPullRequests_allClean_getLast env payload checkRun
      payload.PullRequests hall
    rw [hpr] at h
    have hne : processPullRequests env payload checkRun (pullRequest :: rest) ≠ [] := by
      intro hnil
      rw [hnil] at h
      simp at h
    simp only [HandleCheckSuite, hcreate, hpr, List.length_cons]
    rw [if_pos (Nat.succ_pos rest.length)]
    rw [show Effect.createCheckRun payload.HeadSHA
        :: processPullRequests env payload checkRun (pullRequest :: rest)
      = [Effect.createCheckRun payload.HeadSHA]
        ++ processPullRequests env payload checkRun (pullRequest :: rest) from rfl]
    rw [List.getLast?_append_of_ne_nil _ hne]
    exact h

/-- Witness for C10 at a concrete environment: the single pull request of the
payload concludes the run, and the handler trace is the creation effect
followed by exactly that evaluation's effects. -/
theorem handleCheckSuite_first_pr_determines_witness :
    HandleCheckSuite envUnresolved samplePayload =
      Effect.createCheckRun samplePayload.HeadSHA
        :: [Effect.listCommits 1,
            Effect.scanFiles [],
            Effect.updateCheckRun checkRunStatus.completed checkRunConclusion.failure
              (envUnresolved.buildMessage [unresolvedResult]).1
              (some (envUnresolved.buildMessage [unresolvedResult]).2)] :=
  (handleCheckSuite_first_pr_determines envUnresolved samplePayload sampleCheckRun
    ⟨1⟩ [] rfl rfl).1
    [Effect.listCommits 1,
     Effect.scanFiles [],
     Effect.updateCheckRun checkRunStatus.completed checkRunConclusion.failure
       (envUnresolved.buildMessage [unresolvedResult]).1
       (some (envUnresolved.buildMessage [unresolvedResult]).2)] rfl

/-- The fields of `github.PushEvent` that `HandlePush` reads. -/
structure PushEvent where
  RepoOwner : String
  RepoName : String
  Ref : String
  PusherName : String
  deriving DecidableEq, Repr

/-- One external call issued by `HandlePush`. -/
inductive PushEffect where
  | listPullRequests (head : String)
  | checkPush
  | handleMatches
  deriving DecidableEq, Repr

/-- The external collaborators `HandlePush` calls.  `listOpenPullRequests`
models `PullRequests.List` filtered to open pull requests whose head matches
the given "pusher:ref" string; the Go code reads the returned list without
checking the returned error, so only the list is consulted. -/
structure PushEnv where
  listOpenPullRequests : String → List PullRequest × Except String Unit
  checkPush : Except String (List scanning.CommitScanResult)
  handleMatchesFromPush : Except String Unit

/-- `HandlePush`: list open pull requests for the pushed branch and return at
once if any exists; otherwise scan the push and, if the scan finds anything,
hand the results to the match handler. -/
def HandlePush (env : PushEnv) (pushPayload : PushEvent) : List PushEffect :=
  let head := pushPayload.PusherName ++ ":" ++ pushPayload.Ref
  let pullRequests := (env.listOpenPullRequests head).1
  PushEffect.listPullRequests head ::
    (if pullRequests.length > 0 then
      []
    else
      match env.checkPush with
      | Except.error _ => [PushEffect.checkPush]
      | Except.ok commitScanResults =>
        PushEffect.checkPush ::
          (if commitScanResults.length > 0 then
            match env.handleMatchesFromPush with
            | Except.error _ => [PushEffect.handleMatches]
            | Except.ok _ => [PushEffect.handleMatches]
          else []))

/-- C9: when at least one open pull request exists with head matching the
pushed ref, `HandlePush` only lists the pull requests and returns — it never
scans a commit and never reaches the match handler, so no issue or other
remediation side effect is produced. -/
theorem handlePush_openPR_skips
    (env : PushEnv) (pushPayload : PushEvent)
    (hopen : ((env.listOpenPullRequests
      (pushPayload.PusherName ++ ":" ++ pushPayload.Ref)).1).length > 0) :
    HandlePush env pushPayload =
      [PushEffect.listPullRequests (pushPayload.PusherName ++ ":" ++ pushPayload.Ref)]
    ∧ PushEffect.checkPush ∉ HandlePush env pushPayload
    ∧ PushEffect.handleMatches ∉ HandlePush env pushPayload := by
  have htrace : HandlePush env pushPayload =
      [PushEffect.listPullRequests (pushPayload.PusherName ++ ":" ++ pushPayload.Ref)] := by
    simp [HandlePush, hopen]
  refine ⟨htrace, ?_, ?_⟩
  · rw [htrace]
    simp
  · rw [htrace]
    simp

/-- A sample push event. -/
def samplePush : PushEvent := ⟨"octo", "orca", "refs/heads/topic", "alice"⟩

/-- A push environment in which one open pull request exists for the pushed
branch. -/
def pushEnvWithPR : PushEnv :=
  ⟨fun _ => ([⟨1⟩], Except.ok ()),
   Except.ok [⟨[⟨false⟩]⟩],
   Except.ok ()⟩

/-- Witness for C9 at a concrete environment and payload. -/
theorem handlePush_openPR_skips_witness :
    HandlePush pushEnvWithPR samplePush =
      [PushEffect.listPullRequests (samplePush.PusherName ++ ":" ++ samplePush.Ref)]
    ∧ PushEffect.checkPush ∉ HandlePush pushEnvWithPR samplePush
    ∧ PushEffect.handleMatches ∉ HandlePush pushEnvWithPR samplePush :=
  handlePush_openPR_skips pushEnvWithPR samplePush (by decide)

namespace handlers

/-- `handlers.LineMatch` as read by the remediator (`lineMatch.LineNumber`). -/
structure LineMatch where
  LineNumber : Nat
  deriving DecidableEq, Repr

/-- `handlers.FileMatch` as read by the remediator (`*dangerousFile.Path`,
`*dangerousFile.URL`). -/
structure FileMatch where
  Path : String
  URL : String
  deriving DecidableEq, Repr

/-- `handlers.ContentMatch` as read by the remediator (`*contentMatch.Path`,
`*contentMatch.URL`, `contentMatch.LineMatches`). -/
structure ContentMatch where
  Path : String
  URL : String
  LineMatches : List LineMatch
  deriving DecidableEq, Repr

/-- `handlers.CommitScanResult` as read by the remediator: the commit
identifier plus its file matches and content matches. -/
structure CommitScanResult where
  Commit : String
  FileMatches : List FileMatch
  ContentMatches : List ContentMatch
  deriving DecidableEq, Repr

end handlers

/-- The fields of the webhooks-library `github.PushPayload` that
`RemediateFromPush` reads (`Repository.Owner.Login`, `Repository.Name`,
`Pusher.Name`). -/
structure PushPayload where
  RepoOwner : String
  RepoName : String
  PusherName : String
  deriving DecidableEq, Repr

/-- One external call issued by `RemediateFromPush`: the issue-creation
request with its owner, repository, title, body and assignee. -/
inductive RemediationEffect where
  | createIssue (owner name title body assignee : String)
  deriving DecidableEq, Repr

/-- The external collaborator `RemediateFromPush` calls:
`Issues.Create(owner, name, IssueRequest{Title, Body, Assignee})`. -/
structure RemediatorEnv where
  createIssue : String → String → String → String → String → Except String Unit

/-- The issue title built by `RemediateFromPush`: plural with the exact result
count for more than one scan result, singular otherwise. -/
def remediationTitle (results : List handlers.CommitScanResult) : String :=
  if results.length > 1 then
    "Potentially sensitive data found in " ++ toString results.length ++ " commits"
  else
    "Potentially sensitive data found in a commit"

/-- The dangerous-files section of the issue body: one bulleted locator line
per file match, when any exists. -/
def fileMatchesSection (fileMatches : List handlers.FileMatch) : String :=
  if fileMatches.length > 0 then
    "Potentially sensitive files:\n"
      ++ fileMatches.foldl
          (fun acc dangerousFile =>
            acc ++ "- [" ++ dangerousFile.Path ++ "](" ++ dangerousFile.URL ++ ")\n") ""
      ++ "\n\n"
  else ""

/-- The per-file listing of content-match locator links with line numbers. -/
def lineMatchesSection (contentMatch : handlers.ContentMatch) : String :=
  "### " ++ contentMatch.Path ++ "\n"
    ++ contentMatch.LineMatches.foldl
        (fun acc lineMatch =>
          acc ++ contentMatch.URL ++ "#L" ++ toString lineMatch.LineNumber ++ "\n") ""

/-- The content-matches section of the issue body, when any exists. -/
def contentMatchesSection (contentMatches : List handlers.ContentMatch) : String :=
  if contentMatches.length > 0 then
    "Files containing potentially sensitive data:\n"
      ++ contentMatches.foldl (fun acc contentMatch => acc ++ lineMatchesSection contentMatch) ""
  else ""

/-- The issue body built by `RemediateFromPush`: a fixed preamble, then per
result a header naming the commit followed by its two sections. -/
def remediationBody (results : List handlers.CommitScanResult) : String :=
  "Potentially sensitive data has recently been pushed to this repository.\n\n"
    ++ results.foldl
        (fun acc result =>
          acc ++ "Introduced in " ++ result.Commit ++ ":\n"
            ++ fileMatchesSection result.FileMatches
            ++ contentMatchesSection result.ContentMatches) ""

/-- `RemediateFromPush`: build the title and body from the scan results, then
open one tracking issue assigned to the pusher; a creation error is returned
to the caller. -/
def RemediateFromPush (env : RemediatorEnv) (pushPayload : PushPayload)
    (results : List handlers.CommitScanResult) :
    List RemediationEffect × Except String Unit :=
  let title := remediationTitle results
  let body := remediationBody results
  ([RemediationEffect.createIssue pushPayload.RepoOwner pushPayload.RepoName
      title body pushPayload.PusherName],
   match env.createIssue pushPayload.RepoOwner pushPayload.RepoName title body
       pushPayload.PusherName with
   | Except.error e => Except.error e
   | Except.ok _ => Except.ok ())

/-- C7: with exactly one scan result the issue title is the singular form, and
with two or more it is the plural form with the exact count substituted; the
title is the one carried by the single issue-creation call of
`RemediateFromPush`. -/
theorem remediateFromPush_title_pluralization
    (env : RemediatorEnv) (pushPayload : PushPayload)
    (results : List handlers.CommitScanResult) :
    (results.length = 1 →
      (RemediateFromPush env pushPayload results).1 =
        [RemediationEffect.createIssue pushPayload.RepoOwner pushPayload.RepoName
          "Potentially sensitive data found in a commit"
          (remediationBody results) pushPayload.PusherName])
    ∧ (results.length ≥ 2 →
      (RemediateFromPush env pushPayload results).1 =
        [RemediationEffect.createIssue pushPayload.RepoOwner pushPayload.RepoName
          ("Potentially sensitive data found in " ++ toString results.length ++ " commits")
          (remediationBody results) pushPayload.PusherName]) := by
  constructor
  · intro hone
    simp [RemediateFromPush, remediationTitle, hone]
  · intro htwo
    have hgt : results.length > 1 := htwo
    simp [RemediateFromPush, remediationTitle, hgt]

/-- A sample remediator environment. -/
def sampleRemediatorEnv : RemediatorEnv := ⟨fun _ _ _ _ _ => Except.ok ()⟩

/-- A sample push payload for the remediator. -/
def sampleRemPush : PushPayload := ⟨"octo", "orca", "alice"⟩

/-- A sample scan result for the remediator. -/
def sampleRemResult : handlers.CommitScanResult := ⟨"abc123", [⟨"id_rsa", "u"⟩], []⟩

/-- Witness for C7 at concrete inputs: singular title for one result, plural
title with the exact count for two results. -/
theorem remediateFromPush_title_pluralization_witness :
    (RemediateFromPush sampleRemediatorEnv sampleRemPush [sampleRemResult]).1 =
      [RemediationEffect.createIssue "octo" "orca"
        "Potentially sensitive data found in a commit"
        (remediationBody [sampleRemResult]) "alice"]
    ∧ (RemediateFromPush sampleRemediatorEnv sampleRemPush
        [sampleRemResult, sampleRemResult]).1 =
      [RemediationEffect.createIssue "octo" "orca"
        ("Potentially sensitive data found in " ++ toString (2 : Nat) ++ " commits")
        (remediationBody [sampleRemResult, sampleRemResult]) "alice"] :=
  ⟨(remediateFromPush_title_pluralization sampleRemediatorEnv sampleRemPush
      [sampleRemResult]).1 rfl,
   (remediateFromPush_title_pluralization sampleRemediatorEnv sampleRemPush
      [sampleRemResult, sampleRemResult]).2 (by decide)⟩

/-- C8: for a non-empty result list, `RemediateFromPush` issues exactly one
issue-creation call — never one per commit — and the assignee carried by that
call is the pusher of the push event. -/
theorem remediateFromPush_one_issue
    (env : RemediatorEnv) (pushPayload : PushPayload)
    (results : List handlers.CommitScanResult)
    (_hne : results ≠ []) :
    (RemediateFromPush env pushPayload results).1 =
      [RemediationEffect.createIssue pushPayload.RepoOwner pushPayload.RepoName
        (remediationTitle results) (remediationBody results) pushPayload.PusherName]
    ∧ (RemediateFromPush env pushPayload results).1.length = 1 := by
  exact ⟨rfl, rfl⟩

/-- Witness for C8 at concrete inputs: two scan results still produce a single
issue-creation call, assigned to the pusher. -/
theorem remediateFromPush_one_issue_witness :
    (RemediateFromPush sampleRemediatorEnv sampleRemPush
        [sampleRemResult, sampleRemResult]).1 =
      [RemediationEffect.createIssue sampleRemPush.RepoOwner sampleRemPush.RepoName
        (remediationTitle [sampleRemResult, sampleRemResult])
        (remediationBody [sampleRemResult, sampleRemResult]) sampleRemPush.PusherName]
    ∧ (RemediateFromPush sampleRemediatorEnv sampleRemPush
        [sampleRemResult, sampleRemResult]).1.length = 1 :=
  remediateFromPush_one_issue sampleRemediatorEnv sampleRemPush
    [sampleRemResult, sampleRemResult] (by decide)
